import Mathlib

/-!
Verification of the DeFi systemic-risk metrics engine.

The four analyzers (stablecoin peg stress, lending leverage, bridge risk,
liquidation cascade) and the query surface are shallowly embedded here.
Python floats are idealized as exact rationals, `round(x, n)` as
round-half-to-even on the scaled rational, and Python dicts as
insertion-ordered association lists.  A JSON-ish scalar is a `PyVal`: a
number, a null, or a string carried together with the value Python
float() would yield for its text, so that arithmetic on a string raises
while float() of a numeric string converts.
-/

/-- Round-half-to-even to an integer, the rounding rule of Python round. -/
def rhe (q : ℚ) : ℤ :=
  let f := ⌊q⌋
  let r := q - f
  if r < 1/2 then f
  else if 1/2 < r then f + 1
  else if f % 2 = 0 then f else f + 1

/-- Python round(x, n): round-half-to-even at n decimal digits. -/
def pyRound (q : ℚ) (n : ℕ) : ℚ :=
  (rhe (q * 10 ^ n) : ℚ) / 10 ^ n

theorem rhe_zero : rhe 0 = 0 := by
  simp [rhe]

theorem pyRound_zero (n : ℕ) : pyRound 0 n = 0 := by
  simp [pyRound, rhe_zero]

/-- A JSON-ish scalar as the analyzers see it.  A string value carries,
next to its text, the rational that Python float() would produce for that
text (Option.none when float() raises ValueError).  Arithmetic such as
price - 1.0 raises TypeError on every string, numeric or not; only
_safe_float, which calls float(), uses the carried parse result.  An
input is meaningful when the carried result agrees with the float() parse
of the text; no theorem relies on any relation between the two. -/
inductive PyVal where
  | num (q : ℚ)
  | str (s : String) (parsedFloat : Option ℚ)
  | none
deriving DecidableEq

/-- Python truthiness of a PyVal. -/
def pyTruthy : PyVal → Bool
  | .num q => q != 0
  | .str s _ => s ≠ ""
  | .none => false

/-- Python x or y on PyVals. -/
def pyOr (v d : PyVal) : PyVal := if pyTruthy v then v else d

/-- Using a PyVal in arithmetic: Python raises TypeError on null and on
every string, whatever its content. -/
def asNum : PyVal → Except String ℚ
  | .num q => .ok q
  | .str _ _ => .error "TypeError"
  | .none => .error "TypeError"

/-- Python field.get(k, 0) or 0 for a plainly numeric-or-missing field
(null and absent are both modelled by Option.none). -/
def pyOrQ (o : Option ℚ) (d : ℚ) : ℚ :=
  match o with
  | some q => if q = 0 then d else q
  | none => d

/-- Stable insertion of one element into a list sorted descending by key:
the element goes after every element with a key at least as large. -/
def insertDescBy {α : Type} (key : α → ℚ) (a : α) : List α → List α
  | [] => [a]
  | b :: bs => if key b < key a then a :: b :: bs else b :: insertDescBy key a bs

/-- Stable descending sort by a rational key, the behaviour of Python
sorted(key, reverse=True). -/
def sortDescBy {α : Type} (key : α → ℚ) (l : List α) : List α :=
  l.foldl (fun acc a => insertDescBy key a acc) []

/-- Python dict lookup with insertion-ordered association lists. -/
def lookupA {α : Type} (k : String) (l : List (String × α)) : Option α :=
  (l.find? (fun p => p.1 == k)).map (·.2)

/-- Python dict assignment d[k] = v: replace in place, else append. -/
def assocSet {α : Type} (k : String) (v : α) : List (String × α) → List (String × α)
  | [] => [(k, v)]
  | (k', w) :: rest => if k' = k then (k, v) :: rest else (k', w) :: assocSet k v rest

/-- Python d[k] = d.get(k, 0) + v: add in place, else append. -/
def assocAdd (k : String) (v : ℚ) : List (String × ℚ) → List (String × ℚ)
  | [] => [(k, v)]
  | (k', w) :: rest => if k' = k then (k', w + v) :: rest else (k', w) :: assocAdd k v rest

/-- Python: create-fresh-if-absent then mutate the entry under k. -/
def assocModify {α : Type} (k : String) (f : α → α) (fresh : α) :
    List (String × α) → List (String × α)
  | [] => [(k, f fresh)]
  | (k', v) :: rest =>
    if k' = k then (k', f v) :: rest else (k', v) :: assocModify k f fresh rest

/-- Python int() applied to a rational: truncation toward zero. -/
def pyInt (q : ℚ) : ℤ := if 0 ≤ q then ⌊q⌋ else ⌈q⌉

-- ── Bridge risk analyzer (src/metrics/bridge.py) ──────────────────────────

/-- One record of the DeFiLlama bridge list (numeric-or-missing fields). -/
structure BridgeIn where
  name : Option String
  displayName : Option String
  currentTotalVolume : Option ℚ
  lastDailyVolume : Option ℚ
deriving DecidableEq

/-- b.get("displayName", b.get("name", "?")). -/
def bridgeDisplay (b : BridgeIn) : String := b.displayName.getD (b.name.getD "?")

/-- float(b.get("currentTotalVolume", 0) or 0). -/
def bridgeTvl (b : BridgeIn) : ℚ := pyOrQ b.currentTotalVolume 0

/-- float(b.get("lastDailyVolume", 0) or 0). -/
def bridgeDaily (b : BridgeIn) : ℚ := pyOrQ b.lastDailyVolume 0

/-- The (name, tvl) pairs kept by calc_bridge_concentration: tvl > 0. -/
def tvlPairs (bridges : List BridgeIn) : List (String × ℚ) :=
  (bridges.map (fun b => (bridgeDisplay b, bridgeTvl b))).filter (fun p => decide (0 < p.2))

/-- total = sum(t for _, t in tvls). -/
def bridgeTotal (bridges : List BridgeIn) : ℚ :=
  ((tvlPairs bridges).map Prod.snd).sum

/-- hhi = sum(s ** 2 for _, s in shares) * 10000, with shares = tvl / total. -/
def bridgeHHI (bridges : List BridgeIn) : ℚ :=
  ((tvlPairs bridges).map (fun p => (p.2 / bridgeTotal bridges) ^ 2)).sum * 10000

/-- Concentration tier of the raw HHI value. -/
def hhi_level (hhi : ℚ) : String :=
  if 2500 ≤ hhi then "HIGHLY_CONCENTRATED"
  else if 1500 ≤ hhi then "MODERATELY_CONCENTRATED"
  else "COMPETITIVE"

structure TopBridge where
  name : String
  tvl_usd_bn : ℚ
  share_pct : ℚ
deriving DecidableEq

structure ConcRecord where
  hhi : ℚ
  concentration_level : String
  total_bridge_tvl_usd_bn : ℚ
  bridge_count : ℕ
  top_bridges : List TopBridge
deriving DecidableEq

/-- calc_bridge_concentration returns either the no-data error record
(which has no hhi key) or the populated record. -/
inductive ConcOut where
  | errorNoData
  | ok (r : ConcRecord)
deriving DecidableEq

def calc_bridge_concentration (bridges : List BridgeIn) : ConcOut :=
  let tvls := tvlPairs bridges
  let total := bridgeTotal bridges
  if total = 0 then .errorNoData
  else
    let shares := tvls.map (fun p => (p.1, p.2 / total))
    let hhi := bridgeHHI bridges
    let top_bridges :=
      (sortDescBy (fun tb => tb.share_pct)
        (((sortDescBy Prod.snd tvls).zip (sortDescBy Prod.snd shares)).map
          (fun pq => TopBridge.mk pq.1.1 (pyRound (pq.1.2 / 1000000000) 3)
            (pyRound (pq.2.2 * 100) 2)))).take 10
    .ok { hhi := pyRound hhi 1
          concentration_level := hhi_level hhi
          total_bridge_tvl_usd_bn := pyRound (total / 1000000000) 2
          bridge_count := tvls.length
          top_bridges := top_bridges }

/-- concentration.get("hhi", d): the error record carries no hhi key. -/
def hhiGet (c : ConcOut) (d : ℚ) : ℚ :=
  match c with
  | .errorNoData => d
  | .ok r => r.hhi

structure Anomaly where
  bridge : String
  tvl_usd_bn : ℚ
  daily_volume_usd_bn : ℚ
  outflow_pct : ℚ
  severity : String
deriving DecidableEq

/-- Loop body of detect_bridge_anomalies. -/
def anomStep (drop_threshold_pct : ℚ) (acc : List Anomaly) (b : BridgeIn) : List Anomaly :=
  let current := bridgeTvl b
  let daily_vol := bridgeDaily b
  if current ≤ 0 then acc
  else
    let outflow_ratio := if 0 < current then |daily_vol| / current else 0
    if drop_threshold_pct ≤ outflow_ratio * 100 then
      acc ++ [{ bridge := bridgeDisplay b
                tvl_usd_bn := pyRound (current / 1000000000) 3
                daily_volume_usd_bn := pyRound (daily_vol / 1000000000) 3
                outflow_pct := pyRound (outflow_ratio * 100) 2
                severity := if 2/5 < outflow_ratio then "CRITICAL" else "WARNING" }]
    else acc

def detect_bridge_anomalies (bridges : List BridgeIn) (drop_threshold_pct : ℚ) :
    List Anomaly :=
  sortDescBy (fun a => a.outflow_pct) (bridges.foldl (anomStep drop_threshold_pct) [])

structure BridgeReport where
  overall_bridge_risk : String
  concentration : ConcOut
  anomaly_count : ℕ
  anomalies : List Anomaly
deriving DecidableEq

/-- build_bridge_risk_report; none models the empty-input error dict. -/
def build_bridge_risk_report (bridges : List BridgeIn) (drop_threshold_pct : ℚ) :
    Option BridgeReport :=
  if bridges = [] then none
  else
    let concentration := calc_bridge_concentration bridges
    let anomalies := detect_bridge_anomalies bridges drop_threshold_pct
    let overall_risk :=
      if anomalies ≠ [] ∨ 3000 < hhiGet concentration 0 then "HIGH"
      else if 1500 < hhiGet concentration 0 then "MODERATE" else "LOW"
    some { overall_bridge_risk := overall_risk
           concentration := concentration
           anomaly_count := anomalies.length
           anomalies := anomalies }

-- ── Stablecoin peg analyzer (src/metrics/stablecoin.py) ───────────────────

/-- One CoinGecko market record as analyse_pegs sees it. -/
structure CoinIn where
  id : Option String
  symbol : Option String
  name : Option String
  current_price : Option PyVal
  market_cap : Option PyVal
  total_volume : Option PyVal
  price_change_percentage_24h : Option PyVal
deriving DecidableEq

/-- price = coin.get("current_price", 1.0) or 1.0. -/
def priceV (coin : CoinIn) : PyVal := pyOr (coin.current_price.getD (.num 1)) (.num 1)

/-- mcap = coin.get("market_cap", 0) or 0. -/
def mcapV (coin : CoinIn) : PyVal := pyOr (coin.market_cap.getD (.num 0)) (.num 0)

/-- vol24h = coin.get("total_volume", 0) or 0. -/
def volV (coin : CoinIn) : PyVal := pyOr (coin.total_volume.getD (.num 0)) (.num 0)

/-- change_24h = coin.get("price_change_percentage_24h") or 0. -/
def changeV (coin : CoinIn) : PyVal :=
  pyOr (coin.price_change_percentage_24h.getD .none) (.num 0)

/-- Per-asset three-tier classification, inclusive at the higher tier. -/
def pegStatus (warn_threshold critical_threshold absDev : ℚ) : String :=
  if critical_threshold ≤ absDev then "CRITICAL"
  else if warn_threshold ≤ absDev then "WARNING"
  else "STABLE"

/-- System-level tier function of stablecoin.py (strict comparisons). -/
def stress_level (deviation : ℚ) : String :=
  if 2/100 < deviation then "CRITICAL"
  else if 5/1000 < deviation then "ELEVATED"
  else if 1/1000 < deviation then "MILD"
  else "NORMAL"

structure CoinOut where
  id : Option String
  symbol : String
  name : Option String
  price_usd : ℚ
  peg_deviation : ℚ
  peg_deviation_pct : ℚ
  status : String
  market_cap_usd_bn : ℚ
  volume_24h_usd_bn : ℚ
  price_change_24h_pct : ℚ
deriving DecidableEq

structure PegState where
  coins : List CoinOut
  total_mcap : ℚ
  weighted_dev : ℚ
deriving DecidableEq

/-- Loop body of analyse_pegs.  Python raises TypeError at the first
arithmetic use of a non-numeric truthy field; all four such uses raise the
same TypeError, so the failing cases are collapsed into one match arm. -/
def pegStep (warn_threshold critical_threshold : ℚ) (st : PegState) (coin : CoinIn) :
    Except String PegState :=
  match asNum (priceV coin), asNum (mcapV coin), asNum (volV coin), asNum (changeV coin) with
  | .ok price, .ok mcap, .ok vol24h, .ok change_24h =>
    let deviation := price - 1
    let abs_deviation := |deviation|
    let status := pegStatus warn_threshold critical_threshold abs_deviation
    let entry : CoinOut :=
      { id := coin.id
        symbol := (coin.symbol.getD "").toUpper
        name := coin.name
        price_usd := pyRound price 6
        peg_deviation := pyRound deviation 6
        peg_deviation_pct := pyRound (abs_deviation * 100) 4
        status := status
        market_cap_usd_bn := pyRound (mcap / 1000000000) 3
        volume_24h_usd_bn := pyRound (vol24h / 1000000000) 3
        price_change_24h_pct := pyRound change_24h 4 }
    .ok { coins := st.coins ++ [entry]
          total_mcap := st.total_mcap + mcap
          weighted_dev := st.weighted_dev + mcap * abs_deviation }
  | _, _, _, _ => .error "TypeError"

structure PegReport where
  total_stablecoin_mcap_usd_bn : ℚ
  system_peg_stress_index : ℚ
  system_stress_level : String
  critical_count : ℕ
  warning_count : ℕ
  coins : List CoinOut
deriving DecidableEq

/-- The report analyse_pegs assembles from the final loop state. -/
def mkPegReport (st : PegState) : PegReport :=
  let system_stress := if 0 < st.total_mcap then st.weighted_dev / st.total_mcap else 0
  let critical_coins := st.coins.filter (fun c => c.status == "CRITICAL")
  let warning_coins := st.coins.filter (fun c => c.status == "WARNING")
  { total_stablecoin_mcap_usd_bn := pyRound (st.total_mcap / 1000000000) 2
    system_peg_stress_index := pyRound (system_stress * 100) 6
    system_stress_level := stress_level system_stress
    critical_count := critical_coins.length
    warning_count := warning_coins.length
    coins := sortDescBy (fun c => |c.peg_deviation|) st.coins }

def analyse_pegs (stablecoin_market_data : List CoinIn)
    (warn_threshold critical_threshold : ℚ) : Except String PegReport := do
  let st ← stablecoin_market_data.foldlM
    (pegStep warn_threshold critical_threshold) ⟨[], 0, 0⟩
  pure (mkPegReport st)

/-- The market-cap contribution of one record, 0 on non-numeric fields. -/
def coinMcap (coin : CoinIn) : ℚ :=
  match asNum (mcapV coin) with
  | .ok q => q
  | .error _ => 0

/-- Sum of the market-cap fields of a batch. -/
def totalMcapList (data : List CoinIn) : ℚ := (data.map coinMcap).sum

-- ── Leverage analyzer (src/metrics/leverage.py) ───────────────────────────

/-- DeFiLlama pool slugs tracked by the leverage analyzer. -/
def TRACKED_LENDING : List String :=
  ["aave-v3", "aave-v2", "compound-v3", "compound-v2",
   "makerdao", "spark", "morpho-blue", "radiant-v2",
   "venus", "benqi", "euler", "fraxlend"]

/-- One DeFiLlama yield-pool record (numeric-or-missing fields). -/
structure PoolIn where
  project : Option String
  symbol : Option String
  chain : Option String
  tvlUsd : Option ℚ
  totalBorrowUsd : Option ℚ
  borrowTvl : Option ℚ
  totalSupplyUsd : Option ℚ
  apyBorrow : Option ℚ
  apy : Option ℚ
deriving DecidableEq

structure PoolOut where
  symbol : String
  chain : String
  tvl_usd_mn : ℚ
  borrow_tvl_usd_mn : ℚ
  utilization : ℚ
  borrow_apy_pct : ℚ
  supply_apy_pct : ℚ
  interest_spread_pct : ℚ
deriving DecidableEq

structure ProtoAcc where
  protocol : String
  pools : List PoolOut
  total_tvl : ℚ
  total_borrow : ℚ
  total_supply : ℚ
deriving DecidableEq

def poolProject (pool : PoolIn) : String := (pool.project.getD "").toLower

def poolTvl (pool : PoolIn) : ℚ := pyOrQ pool.tvlUsd 0

/-- Loop body of the grouping pass of build_leverage_heatmap. -/
def levStep (acc : List (String × ProtoAcc)) (pool : PoolIn) : List (String × ProtoAcc) :=
  let project := poolProject pool
  if project ∈ TRACKED_LENDING then
    let tvl := poolTvl pool
    let borrow_tvl := pyOrQ pool.totalBorrowUsd (pyOrQ pool.borrowTvl 0)
    let supply_tvl := pyOrQ pool.totalSupplyUsd tvl
    let borrow_apy := pyOrQ pool.apyBorrow 0
    let supply_apy := pyOrQ pool.apy 0
    let utilization := if 0 < supply_tvl then borrow_tvl / supply_tvl else 0
    let poolOut : PoolOut :=
      { symbol := pool.symbol.getD "?"
        chain := pool.chain.getD "?"
        tvl_usd_mn := pyRound (tvl / 1000000) 2
        borrow_tvl_usd_mn := pyRound (borrow_tvl / 1000000) 2
        utilization := pyRound utilization 4
        borrow_apy_pct := pyRound borrow_apy 4
        supply_apy_pct := pyRound supply_apy 4
        interest_spread_pct := pyRound (borrow_apy - supply_apy) 4 }
    assocModify project
      (fun d => { d with pools := d.pools ++ [poolOut]
                         total_tvl := d.total_tvl + tvl
                         total_borrow := d.total_borrow + borrow_tvl
                         total_supply := d.total_supply + supply_tvl })
      { protocol := project, pools := [], total_tvl := 0, total_borrow := 0, total_supply := 0 }
      acc
  else acc

/-- Per-protocol five-tier utilization stress, inclusive at the higher tier. -/
def util_stress (util : ℚ) : String :=
  if 9/10 ≤ util then "CRITICAL"
  else if 8/10 ≤ util then "HIGH"
  else if 65/100 ≤ util then "ELEVATED"
  else if 1/2 ≤ util then "MODERATE"
  else "LOW"

structure ProtoOut where
  protocol : String
  tvl_usd_bn : ℚ
  total_borrow_usd_bn : ℚ
  utilization : ℚ
  utilization_pct : ℚ
  stress_level : String
  avg_borrow_apy_pct : ℚ
  pool_count : ℕ
deriving DecidableEq

structure LevAgg where
  protocols : List ProtoOut
  total_tvl : ℚ
  weighted_util : ℚ
deriving DecidableEq

/-- Loop body of the per-protocol aggregation pass. -/
def levAggStep (st : LevAgg) (e : String × ProtoAcc) : LevAgg :=
  let d := e.2
  let util := if 0 < d.total_supply then d.total_borrow / d.total_supply else 0
  let avg_borrow_apy :=
    if d.pools = [] then 0
    else (d.pools.map (fun p => p.borrow_apy_pct)).sum / d.pools.length
  { protocols := st.protocols ++
      [{ protocol := e.1
         tvl_usd_bn := pyRound (d.total_tvl / 1000000000) 3
         total_borrow_usd_bn := pyRound (d.total_borrow / 1000000000) 3
         utilization := pyRound util 4
         utilization_pct := pyRound (util * 100) 2
         stress_level := util_stress util
         avg_borrow_apy_pct := pyRound avg_borrow_apy 3
         pool_count := d.pools.length }]
    total_tvl := st.total_tvl + d.total_tvl
    weighted_util := st.weighted_util + d.total_tvl * util }

structure LevReport where
  system_leverage_index : ℚ
  system_leverage_pct : ℚ
  system_stress_level : String
  total_lending_tvl_usd_bn : ℚ
  protocols : List ProtoOut
deriving DecidableEq

def build_leverage_heatmap (pools : List PoolIn) : LevReport :=
  let protocol_data := pools.foldl levStep []
  let agg := protocol_data.foldl levAggStep ⟨[], 0, 0⟩
  let system_util := if 0 < agg.total_tvl then agg.weighted_util / agg.total_tvl else 0
  { system_leverage_index := pyRound system_util 4
    system_leverage_pct := pyRound (system_util * 100) 2
    system_stress_level := util_stress system_util
    total_lending_tvl_usd_bn := pyRound (agg.total_tvl / 1000000000) 2
    protocols := sortDescBy (fun p => p.utilization) agg.protocols }

/-- Sum of the TVL fields of the tracked pools of a batch. -/
def trackedTvlSum (pools : List PoolIn) : ℚ :=
  (pools.map (fun p => if poolProject p ∈ TRACKED_LENDING then poolTvl p else 0)).sum

-- ── Liquidation cascade simulator (src/metrics/liquidation.py) ────────────

/-- _safe_float: float(val) with TypeError/ValueError defaulted to 0;
float() converts a parsable numeric string and raises on the rest. -/
def safe_float (val : Option PyVal) : ℚ :=
  match val with
  | some (.num q) => q
  | some (.str _ (some q)) => q
  | _ => 0

/-- One collateral entry of an Aave position. -/
structure CollatIn where
  reserveSymbol : Option String
  currentATokenBalance : Option PyVal
deriving DecidableEq

/-- One Aave V3 user position from The Graph. -/
structure PositionIn where
  totalCollateralETH : Option PyVal
  totalDebtETH : Option PyVal
  currentLiquidationThreshold : Option PyVal
  collateral : List CollatIn
deriving DecidableEq

def colEth (pos : PositionIn) : ℚ :=
  safe_float pos.totalCollateralETH / 1000000000000000000

def debtEth (pos : PositionIn) : ℚ :=
  safe_float pos.totalDebtETH / 1000000000000000000

def liqThr (pos : PositionIn) : ℚ :=
  safe_float pos.currentLiquidationThreshold / 10000

/-- Health factor under stress; Option.none models float("inf") when the
stressed debt is not positive. -/
def stressedHF (collateral_usd liq_threshold debt_usd : ℚ) : Option ℚ :=
  if 0 < debt_usd then some (collateral_usd * liq_threshold / debt_usd) else none

/-- stressed_hf < 1.0 (the infinite health factor is never below one). -/
def hfLt1 : Option ℚ → Bool
  | some q => decide (q < 1)
  | none => false

structure CascadeAcc where
  liquidatable_count : ℕ
  liquidatable_usd : ℚ
  total_collateral : ℚ
  liquidatable_by_asset : List (String × ℚ)
deriving DecidableEq

/-- Per-asset USD accumulation done for a liquidatable position. -/
def collatFold (stressed_prices : List (String × ℚ)) (stressed_eth_usd : ℚ)
    (m : List (String × ℚ)) (col : CollatIn) : List (String × ℚ) :=
  let symbol := col.reserveSymbol.getD "UNKNOWN"
  let bal_raw := safe_float col.currentATokenBalance
  let token_price :=
    match lookupA symbol stressed_prices with
    | some p => p
    | none => if symbol = "WETH" then stressed_eth_usd else 1
  assocAdd symbol (bal_raw / 1000000000000000000 * token_price) m

/-- Loop body of _calc_cascade. -/
def posStep (stressed_prices : List (String × ℚ)) (stressed_eth_usd : ℚ)
    (acc : CascadeAcc) (pos : PositionIn) : CascadeAcc :=
  let collateral_eth := colEth pos
  let debt_eth := debtEth pos
  let liq_threshold := liqThr pos
  if collateral_eth ≤ 0 ∨ debt_eth ≤ 0 ∨ liq_threshold ≤ 0 then acc
  else
    let collateral_usd := collateral_eth * stressed_eth_usd
    let debt_usd := debt_eth * stressed_eth_usd
    let acc1 := { acc with total_collateral := acc.total_collateral + collateral_usd }
    let stressed_hf := stressedHF collateral_usd liq_threshold debt_usd
    if hfLt1 stressed_hf then
      { acc1 with
          liquidatable_count := acc1.liquidatable_count + 1
          liquidatable_usd := acc1.liquidatable_usd + collateral_usd
          liquidatable_by_asset :=
            pos.collateral.foldl (collatFold stressed_prices stressed_eth_usd)
              acc1.liquidatable_by_asset }
    else acc1

structure Scenario where
  liquidatable_positions : ℕ
  liquidatable_usd_bn : ℚ
  total_collateral_usd_bn : ℚ
  cascade_pct_of_tvl : Option ℚ
  top_liquidatable_assets : List (String × ℚ)
deriving DecidableEq

/-- _calc_cascade: one price-stress scenario. -/
def calc_cascade (positions : List PositionIn) (stressed_prices : List (String × ℚ))
    (stressed_eth_usd : ℚ) : Scenario :=
  let acc := positions.foldl (posStep stressed_prices stressed_eth_usd) ⟨0, 0, 0, []⟩
  let top_assets := (sortDescBy Prod.snd acc.liquidatable_by_asset).take 5
  { liquidatable_positions := acc.liquidatable_count
    liquidatable_usd_bn := pyRound (acc.liquidatable_usd / 1000000000) 4
    total_collateral_usd_bn := pyRound (acc.total_collateral / 1000000000) 4
    cascade_pct_of_tvl :=
      if 0 < acc.total_collateral then
        some (pyRound (acc.liquidatable_usd / acc.total_collateral * 100) 2)
      else none
    top_liquidatable_assets :=
      top_assets.map (fun p => (p.1, pyRound (p.2 / 1000000000) 4)) }

/-- Scenario key: f-string drop_{int(drop*100)}pct. -/
def scenKey (drop : ℚ) : String := "drop_" ++ toString (pyInt (drop * 100)) ++ "pct"

/-- The scenario simulate_cascade computes for one drop fraction: every
asset price and the ETH price are scaled by (1 - drop). -/
def scenarioFor (positions : List PositionIn) (asset_prices_usd : List (String × ℚ))
    (eth_price_usd drop : ℚ) : Scenario :=
  calc_cascade positions
    (asset_prices_usd.map (fun kv => (kv.1, kv.2 * (1 - drop))))
    (eth_price_usd * (1 - drop))

structure SimResult where
  total_positions_analyzed : ℕ
  scenarios : List (String × Scenario)
  methodology : String
deriving DecidableEq

def simulate_cascade (positions : List PositionIn)
    (asset_prices_usd : List (String × ℚ)) (drop_pcts : List ℚ)
    (eth_price_usd : ℚ) : Except String SimResult :=
  if positions = [] then .error "No position data available from The Graph."
  else .ok
    { total_positions_analyzed := positions.length
      scenarios := drop_pcts.foldl
        (fun results drop =>
          assocSet (scenKey drop)
            (scenarioFor positions asset_prices_usd eth_price_usd drop) results) []
      methodology := "Aave V3 positions re-priced at hypothetical collateral drops." }

-- ── Query surface (mcp/server.py, get_liquidation_cascade) ────────────────

/-- The liquidation_cascade slice of a stored snapshot; Option.none at the
outer level models an absent or empty (falsy) cascade dict. -/
structure CascadeData where
  scenarios : List (String × Scenario)
  methodology : Option String
deriving DecidableEq

structure ServerData where
  date : Option String
  liquidation_cascade : Option CascadeData
deriving DecidableEq

/-- Result of the get_liquidation_cascade tool. -/
inductive CascadeQuery where
  | errNoData
  | errNotFound (key : String) (available : List String)
  | one (date : Option String) (asset : String) (drop_pct : ℚ)
      (scenario : Scenario) (methodology : Option String)
  | all (date : Option String) (asset : String) (cascade : CascadeData)
deriving DecidableEq

def get_liquidation_cascade (data : ServerData) (asset : String)
    (drop_pct : Option ℚ) : CascadeQuery :=
  match data.liquidation_cascade with
  | none => .errNoData
  | some cascade =>
    match drop_pct with
    | some dp =>
      let key := "drop_" ++ toString (pyInt dp) ++ "pct"
      match lookupA key cascade.scenarios with
      | none => .errNotFound key (cascade.scenarios.map Prod.fst)
      | some scenario => .one data.date asset dp scenario cascade.methodology
    | none => .all data.date asset cascade

-- ── Helper lemmas on list sums (for the HHI properties) ───────────────────

theorem sq_sum_le_sum_sq (l : List ℚ) (h : ∀ x ∈ l, 0 ≤ x) :
    (l.map (fun x => x ^ 2)).sum ≤ l.sum ^ 2 := by
  induction l with
  | nil => simp
  | cons a t ih =>
    have ha : 0 ≤ a := h a (by simp)
    have ht : ∀ x ∈ t, 0 ≤ x := fun x hx => h x (by simp [hx])
    have hts : 0 ≤ t.sum := List.sum_nonneg ht
    have hih := ih ht
    simp only [List.map_cons, List.sum_cons]
    nlinarith [mul_nonneg ha hts]

theorem sq_sum_lt_sum_sq (l : List ℚ) (h : ∀ x ∈ l, 0 < x) (h2 : 2 ≤ l.length) :
    (l.map (fun x => x ^ 2)).sum < l.sum ^ 2 := by
  match l with
  | [] => simp at h2
  | [a] => simp at h2
  | a :: b :: t =>
    have ha : 0 < a := h a (by simp)
    have hb : 0 < b := h b (by simp)
    have ht : ∀ x ∈ b :: t, 0 ≤ x := fun x hx => le_of_lt (h x (by simp at hx ⊢; tauto))
    have hts : 0 < (b :: t).sum := by
      have : 0 ≤ t.sum := List.sum_nonneg (fun x hx => ht x (by simp [hx]))
      simp only [List.sum_cons]
      linarith
    have hle := sq_sum_le_sum_sq (b :: t) ht
    simp only [List.map_cons, List.sum_cons] at hle hts ⊢
    nlinarith [mul_pos ha hts, hle]

theorem sq_sum_eq_sum_sq_iff (l : List ℚ) (h : ∀ x ∈ l, 0 < x) (hne : l ≠ []) :
    (l.map (fun x => x ^ 2)).sum = l.sum ^ 2 ↔ l.length = 1 := by
  constructor
  · intro heq
    by_contra hlen
    have h2 : 2 ≤ l.length := by
      rcases l with _ | ⟨a, _ | ⟨b, t⟩⟩
      · exact absurd rfl hne
      · exact absurd rfl hlen
      · simp
    exact absurd heq (ne_of_lt (sq_sum_lt_sum_sq l h h2))
  · intro hlen
    rcases l with _ | ⟨a, t⟩
    · simp at hlen
    · have : t = [] := by
        simpa using hlen
      subst this
      simp

theorem sum_map_div_sq (l : List ℚ) (T : ℚ) :
    (l.map (fun t => (t / T) ^ 2)).sum = (l.map (fun t => t ^ 2)).sum / T ^ 2 := by
  induction l with
  | nil => simp
  | cons a t ih =>
    simp only [List.map_cons, List.sum_cons]
    rw [ih, div_pow, add_div]

theorem tvlPairs_vals_pos (bridges : List BridgeIn) :
    ∀ x ∈ (tvlPairs bridges).map Prod.snd, 0 < x := by
  intro x hx
  rcases List.mem_map.mp hx with ⟨p, hp, hpx⟩
  have := List.of_mem_filter hp
  subst hpx
  exact of_decide_eq_true this

theorem bridgeHHI_eq_vals (bridges : List BridgeIn) :
    bridgeHHI bridges =
      (((tvlPairs bridges).map Prod.snd).map
        (fun t => (t / bridgeTotal bridges) ^ 2)).sum * 10000 := by
  simp [bridgeHHI, List.map_map]
  rfl

theorem tvlPairs_snd_const (bridges : List BridgeIn) (v : ℚ) (hv : 0 < v)
    (h : ∀ b ∈ bridges, bridgeTvl b = v) :
    (tvlPairs bridges).map Prod.snd = List.replicate bridges.length v := by
  induction bridges with
  | nil => simp [tvlPairs]
  | cons b t ih =>
    have hb : bridgeTvl b = v := h b (by simp)
    have ht : ∀ x ∈ t, bridgeTvl x = v := fun x hx => h x (by simp [hx])
    simp only [tvlPairs, List.map_cons, List.filter_cons] at ih ⊢
    rw [hb]
    simp only [decide_eq_true_eq, hv, if_pos]
    simpa [List.replicate_succ] using ih ht

/-- C7: for every bridge list with positive total locked value, the HHI
computed by calc_bridge_concentration is invariant under permutation of the
input, lies in [0, 10000], equals 10000 exactly when a single bridge holds
all of the positive locked value, and equals 10000 / n for n bridges of
equal positive locked value. -/
theorem c7_hhi_properties (bridges bridges' : List BridgeIn)
    (hperm : bridges.Perm bridges') (htot : 0 < bridgeTotal bridges) :
    bridgeHHI bridges' = bridgeHHI bridges ∧
    0 ≤ bridgeHHI bridges ∧ bridgeHHI bridges ≤ 10000 ∧
    (bridgeHHI bridges = 10000 ↔
      bridges.countP (fun b => decide (0 < bridgeTvl b)) = 1) ∧
    (∀ v : ℚ, 0 < v → (∀ b ∈ bridges, bridgeTvl b = v) →
      bridgeHHI bridges = 10000 / bridges.length) := by
  have hp2 : (tvlPairs bridges).Perm (tvlPairs bridges') := by
    unfold tvlPairs
    exact (hperm.map (fun b => (bridgeDisplay b, bridgeTvl b))).filter
      (fun p : String × ℚ => decide (0 < p.2))
  have htotEq : bridgeTotal bridges = bridgeTotal bridges' :=
    (hp2.map Prod.snd).sum_eq
  have hPermHHI : bridgeHHI bridges' = bridgeHHI bridges := by
    unfold bridgeHHI
    rw [← htotEq,
      (hp2.map (fun p => (p.2 / bridgeTotal bridges) ^ 2)).sum_eq]
  have hvalsPos := tvlPairs_vals_pos bridges
  have hvalsNonneg : ∀ x ∈ (tvlPairs bridges).map Prod.snd, (0:ℚ) ≤ x :=
    fun x hx => le_of_lt (hvalsPos x hx)
  have hT : bridgeTotal bridges = ((tvlPairs bridges).map Prod.snd).sum := rfl
  have hT2 : (0:ℚ) < bridgeTotal bridges ^ 2 := by positivity
  have hSq := sq_sum_le_sum_sq ((tvlPairs bridges).map Prod.snd) hvalsNonneg
  have hSqNonneg : (0:ℚ) ≤
      (((tvlPairs bridges).map Prod.snd).map (fun t => t ^ 2)).sum :=
    List.sum_nonneg (by
      intro x hx
      rcases List.mem_map.mp hx with ⟨y, _, hy⟩
      subst hy
      positivity)
  have hRewrite : bridgeHHI bridges =
      (((tvlPairs bridges).map Prod.snd).map (fun t => t ^ 2)).sum /
        bridgeTotal bridges ^ 2 * 10000 := by
    rw [bridgeHHI_eq_vals, sum_map_div_sq]
  have hLower : 0 ≤ bridgeHHI bridges := by
    rw [hRewrite]
    positivity
  have hUpper : bridgeHHI bridges ≤ 10000 := by
    rw [hRewrite]
    have hdiv : (((tvlPairs bridges).map Prod.snd).map (fun t => t ^ 2)).sum /
        bridgeTotal bridges ^ 2 ≤ 1 := by
      rw [div_le_one hT2]
      exact hSq.trans_eq (by rw [hT])
    nlinarith
  have hvalsNe : (tvlPairs bridges).map Prod.snd ≠ [] := by
    intro hnil
    rw [hT, hnil] at htot
    simp at htot
  have hIff : bridgeHHI bridges = 10000 ↔
      bridges.countP (fun b => decide (0 < bridgeTvl b)) = 1 := by
    have hcount : ((tvlPairs bridges).map Prod.snd).length =
        bridges.countP (fun b => decide (0 < bridgeTvl b)) := by
      rw [List.length_map, tvlPairs, ← List.countP_eq_length_filter,
        List.countP_map]
      rfl
    rw [hRewrite]
    constructor
    · intro heq
      have hS : (((tvlPairs bridges).map Prod.snd).map (fun t => t ^ 2)).sum /
          bridgeTotal bridges ^ 2 = 1 := by linarith
      rw [div_eq_one_iff_eq (ne_of_gt hT2)] at hS
      have := (sq_sum_eq_sum_sq_iff ((tvlPairs bridges).map Prod.snd)
        hvalsPos hvalsNe).mp (by rw [hS, hT])
      rw [← hcount]
      exact this
    · intro hc
      have hlen : ((tvlPairs bridges).map Prod.snd).length = 1 := by
        rw [hcount]; exact hc
      have := (sq_sum_eq_sum_sq_iff ((tvlPairs bridges).map Prod.snd)
        hvalsPos hvalsNe).mpr hlen
      rw [← hT] at this
      rw [this, div_self (ne_of_gt hT2)]
      norm_num
  refine ⟨hPermHHI, hLower, hUpper, hIff, ?_⟩
  intro v hv hall
  have hrep := tvlPairs_snd_const bridges v hv hall
  have hn : bridges.length ≠ 0 := by
    intro h0
    have : bridges = [] := List.length_eq_zero.mp h0
    subst this
    simp [tvlPairs] at hvalsNe
  have hnQ : (bridges.length : ℚ) ≠ 0 := Nat.cast_ne_zero.mpr hn
  have hTval : bridgeTotal bridges = (bridges.length : ℚ) * v := by
    rw [hT, hrep, List.sum_replicate, nsmul_eq_mul]
  rw [bridgeHHI_eq_vals, hrep, hTval, List.map_replicate, List.sum_replicate,
    nsmul_eq_mul]
  have hshare : v / ((bridges.length : ℚ) * v) = 1 / (bridges.length : ℚ) := by
    rw [mul_comm, div_mul_eq_div_div, div_self (ne_of_gt hv)]
  rw [hshare]
  field_simp
  ring

/-- Concrete inputs for the C7 witness: two bridges locking 8bn and 2bn. -/
def c7b1 : BridgeIn :=
  { name := some "A", displayName := Option.none,
    currentTotalVolume := some 8000000000, lastDailyVolume := Option.none }

def c7b2 : BridgeIn :=
  { name := some "B", displayName := Option.none,
    currentTotalVolume := some 2000000000, lastDailyVolume := Option.none }

theorem c7_hhi_properties_witness :
    0 < bridgeTotal [c7b1, c7b2] ∧ bridgeHHI [c7b1, c7b2] = 6800 ∧
    bridgeHHI [c7b2, c7b1] = bridgeHHI [c7b1, c7b2] := by
  have htot : 0 < bridgeTotal [c7b1, c7b2] := by
    norm_num [bridgeTotal, tvlPairs, bridgeTvl, bridgeDisplay, pyOrQ, c7b1, c7b2]
  refine ⟨htot, ?_, ?_⟩
  · norm_num [bridgeHHI, bridgeTotal, tvlPairs, bridgeTvl, bridgeDisplay, pyOrQ,
      c7b1, c7b2]
  · exact (c7_hhi_properties [c7b1, c7b2] [c7b2, c7b1]
      (List.Perm.swap c7b2 c7b1 []) htot).1

/-- C6: for a non-empty bridge list with positive total locked value, the
overall verdict is HIGH exactly when an anomaly is flagged or the computed
HHI exceeds 3000, else MODERATE exactly when the HHI exceeds 1500, else
LOW. -/
theorem c6_overall_risk (bridges : List BridgeIn) (drop_threshold_pct : ℚ)
    (r : BridgeReport) (hne : bridges ≠ [])
    (hr : build_bridge_risk_report bridges drop_threshold_pct = some r) :
    (r.overall_bridge_risk = "HIGH" ↔
      r.anomalies ≠ [] ∨ 3000 < hhiGet r.concentration 0) ∧
    (r.overall_bridge_risk = "MODERATE" ↔
      ¬(r.anomalies ≠ [] ∨ 3000 < hhiGet r.concentration 0) ∧
      1500 < hhiGet r.concentration 0) ∧
    (r.overall_bridge_risk = "LOW" ↔
      ¬(r.anomalies ≠ [] ∨ 3000 < hhiGet r.concentration 0) ∧
      ¬(1500 < hhiGet r.concentration 0)) := by
  unfold build_bridge_risk_report at hr
  rw [if_neg hne] at hr
  simp only [Option.some.injEq] at hr
  subst hr
  by_cases hA : detect_bridge_anomalies bridges drop_threshold_pct ≠ [] ∨
      3000 < hhiGet (calc_bridge_concentration bridges) 0
  · simp [hA]
  · by_cases hB : (1500:ℚ) < hhiGet (calc_bridge_concentration bridges) 0
    · simp [hA, hB]
    · simp [hA, hB]

/-- Concrete inputs for the C6 witness. -/
def c6bA : BridgeIn :=
  { name := some "X", displayName := Option.none,
    currentTotalVolume := some 8000000000, lastDailyVolume := Option.none }

def c6bB : BridgeIn :=
  { name := some "Y", displayName := Option.none,
    currentTotalVolume := some 2000000000, lastDailyVolume := Option.none }

/-- The report build_bridge_risk_report returns on the C6 witness input. -/
def c6r : BridgeReport :=
  (build_bridge_risk_report [c6bA, c6bB] 20).getD ⟨"", .errorNoData, 0, []⟩

theorem c6_overall_risk_witness :
    0 < bridgeTotal [c6bA, c6bB] ∧
    build_bridge_risk_report [c6bA, c6bB] 20 = some c6r ∧
    ((c6r.overall_bridge_risk = "HIGH" ↔
      c6r.anomalies ≠ [] ∨ 3000 < hhiGet c6r.concentration 0) ∧
     (c6r.overall_bridge_risk = "MODERATE" ↔
      ¬(c6r.anomalies ≠ [] ∨ 3000 < hhiGet c6r.concentration 0) ∧
      1500 < hhiGet c6r.concentration 0) ∧
     (c6r.overall_bridge_risk = "LOW" ↔
      ¬(c6r.anomalies ≠ [] ∨ 3000 < hhiGet c6r.concentration 0) ∧
      ¬(1500 < hhiGet c6r.concentration 0))) := by
  have hne : ([c6bA, c6bB] : List BridgeIn) ≠ [] := by simp
  have htot : 0 < bridgeTotal [c6bA, c6bB] := by
    norm_num [bridgeTotal, tvlPairs, bridgeTvl, bridgeDisplay, pyOrQ, c6bA, c6bB]
  have hr : build_bridge_risk_report [c6bA, c6bB] 20 = some c6r := by
    unfold c6r build_bridge_risk_report
    rw [if_neg hne]
    rfl
  exact ⟨htot, hr, c6_overall_risk [c6bA, c6bB] 20 c6r hne hr⟩

/-- Folding the anomaly detector over bridges with non-positive locked
value leaves the accumulator unchanged. -/
theorem anomFold_skip (thresh : ℚ) (bridges : List BridgeIn)
    (hall : ∀ b ∈ bridges, bridgeTvl b ≤ 0) (acc : List Anomaly) :
    bridges.foldl (anomStep thresh) acc = acc := by
  induction bridges generalizing acc with
  | nil => rfl
  | cons b t ih =>
    have hb : bridgeTvl b ≤ 0 := hall b (by simp)
    simp only [List.foldl_cons]
    rw [show anomStep thresh acc b = acc from by simp [anomStep, hb]]
    exact ih (fun x hx => hall x (by simp [hx])) acc

/-- C10: on a non-empty bridge list in which every current locked value is
non-positive, the report is LOW overall with zero anomalies and the nested
concentration field is the no-data error record (no hhi key), so the LOW
verdict cannot be told apart from a measured low-risk result. -/
theorem c10_all_nonpositive (bridges : List BridgeIn) (drop_threshold_pct : ℚ)
    (hne : bridges ≠ []) (hall : ∀ b ∈ bridges, bridgeTvl b ≤ 0) :
    build_bridge_risk_report bridges drop_threshold_pct =
      some { overall_bridge_risk := "LOW", concentration := .errorNoData,
             anomaly_count := 0, anomalies := [] } := by
  have hpairs : tvlPairs bridges = [] := by
    rw [tvlPairs, List.filter_eq_nil_iff]
    intro p hp
    rcases List.mem_map.mp hp with ⟨b, hb, rfl⟩
    simpa using not_lt.mpr (hall b hb)
  have htot0 : bridgeTotal bridges = 0 := by simp [bridgeTotal, hpairs]
  have hconc : calc_bridge_concentration bridges = .errorNoData := by
    rw [calc_bridge_concentration]
    simp [htot0]
  have hanom : detect_bridge_anomalies bridges drop_threshold_pct = [] := by
    rw [detect_bridge_anomalies, anomFold_skip drop_threshold_pct bridges hall []]
    rfl
  unfold build_bridge_risk_report
  rw [if_neg hne]
  simp [hconc, hanom, hhiGet]
  norm_num

/-- Concrete input for the C10 witness: one bridge with no locked value. -/
def c10b : BridgeIn :=
  { name := some "Z", displayName := Option.none,
    currentTotalVolume := Option.none, lastDailyVolume := some 5 }

theorem c10_all_nonpositive_witness :
    build_bridge_risk_report [c10b] 20 =
      some { overall_bridge_risk := "LOW", concentration := .errorNoData,
             anomaly_count := 0, anomalies := [] } :=
  c10_all_nonpositive [c10b] 20 (by simp)
    (by
      intro b hb
      simp only [List.mem_singleton] at hb
      subst hb
      simp [bridgeTvl, c10b, pyOrQ])

-- ── Helper lemmas for the stablecoin analyzer ─────────────────────────────

theorem pegStep_total_mcap (w c : ℚ) (st : PegState) (coin : CoinIn)
    (st' : PegState) (h : pegStep w c st coin = .ok st') :
    st'.total_mcap = st.total_mcap + coinMcap coin := by
  unfold pegStep at h
  cases hp : asNum (priceV coin) with
  | error e => rw [hp] at h; simp at h
  | ok price =>
    rw [hp] at h
    cases hm : asNum (mcapV coin) with
    | error e => rw [hm] at h; simp at h
    | ok mcap =>
      rw [hm] at h
      cases hv : asNum (volV coin) with
      | error e => rw [hv] at h; simp at h
      | ok vol24h =>
        rw [hv] at h
        cases hc : asNum (changeV coin) with
        | error e => rw [hc] at h; simp at h
        | ok change_24h =>
          rw [hc] at h
          simp only [Except.ok.injEq] at h
          subst h
          simp [coinMcap, hm]

theorem pegFold_total (w c : ℚ) (data : List CoinIn) :
    ∀ (st st' : PegState), data.foldlM (pegStep w c) st = .ok st' →
      st'.total_mcap = st.total_mcap + totalMcapList data := by
  induction data with
  | nil =>
    intro st st' h
    simp only [List.foldlM_nil] at h
    cases h
    simp [totalMcapList]
  | cons coin t ih =>
    intro st st' h
    rw [List.foldlM_cons] at h
    cases hstep : pegStep w c st coin with
    | error e =>
      rw [hstep] at h
      have h3 : (Except.error e : Except String PegState) = .ok st' := h
      cases h3
    | ok st1 =>
      rw [hstep] at h
      have h2 : t.foldlM (pegStep w c) st1 = .ok st' := h
      rw [ih st1 st' h2, pegStep_total_mcap w c st coin st1 hstep]
      simp only [totalMcapList, List.map_cons, List.sum_cons]
      ring

-- ── Helper lemmas for the leverage analyzer ───────────────────────────────

/-- Sum of the per-protocol running TVL totals of the grouping state. -/
def accTotalSum (l : List (String × ProtoAcc)) : ℚ :=
  (l.map (fun e => e.2.total_tvl)).sum

theorem assocModify_totalSum (k : String) (tvl : ℚ) (f : ProtoAcc → ProtoAcc)
    (hf : ∀ d, (f d).total_tvl = d.total_tvl + tvl) (fresh : ProtoAcc)
    (hfresh : fresh.total_tvl = 0) :
    ∀ l : List (String × ProtoAcc),
      accTotalSum (assocModify k f fresh l) = accTotalSum l + tvl := by
  intro l
  induction l with
  | nil => simp [assocModify, accTotalSum, hf, hfresh]
  | cons e t ih =>
    obtain ⟨k', v⟩ := e
    by_cases hk : k' = k
    · simp only [assocModify, hk, if_pos, accTotalSum, List.map_cons, List.sum_cons, hf]
      ring
    · simp only [assocModify, hk, if_neg, ite_false, accTotalSum, List.map_cons,
        List.sum_cons] at ih ⊢
      rw [ih]
      ring

theorem levStep_totalSum (acc : List (String × ProtoAcc)) (pool : PoolIn) :
    accTotalSum (levStep acc pool) =
      accTotalSum acc +
        (if poolProject pool ∈ TRACKED_LENDING then poolTvl pool else 0) := by
  unfold levStep
  by_cases ht : poolProject pool ∈ TRACKED_LENDING
  · rw [if_pos ht, if_pos ht]
    exact assocModify_totalSum _ _ _ (fun d => rfl) _ rfl acc
  · rw [if_neg ht, if_neg ht]
    ring

theorem levFold_totalSum (pools : List PoolIn) :
    ∀ acc, accTotalSum (pools.foldl levStep acc) =
      accTotalSum acc + trackedTvlSum pools := by
  induction pools with
  | nil => intro acc; simp [trackedTvlSum]
  | cons p t ih =>
    intro acc
    simp only [List.foldl_cons, trackedTvlSum, List.map_cons, List.sum_cons]
    rw [ih, levStep_totalSum]
    simp only [trackedTvlSum]
    ring

theorem levAgg_total (entries : List (String × ProtoAcc)) :
    ∀ st : LevAgg, (entries.foldl levAggStep st).total_tvl =
      st.total_tvl + accTotalSum entries := by
  induction entries with
  | nil => intro st; simp [accTotalSum]
  | cons e t ih =>
    intro st
    simp only [List.foldl_cons]
    rw [ih]
    simp only [levAggStep, accTotalSum, List.map_cons, List.sum_cons]
    ring

/-- C8: a zero weighting denominator resolves to a zero index, not an
error: analyse_pegs reports a zero system peg stress index when the batch
total market capitalization is zero, and build_leverage_heatmap reports a
zero system leverage index when the tracked pools hold zero total TVL. -/
theorem c8_zero_denominator :
    (∀ (data : List CoinIn) (w c : ℚ) (rep : PegReport),
      analyse_pegs data w c = .ok rep → totalMcapList data = 0 →
      rep.system_peg_stress_index = 0) ∧
    (∀ pools : List PoolIn, trackedTvlSum pools = 0 →
      (build_leverage_heatmap pools).system_leverage_index = 0) := by
  constructor
  · intro data w c rep h h0
    unfold analyse_pegs at h
    cases hf : data.foldlM (pegStep w c) ⟨[], 0, 0⟩ with
    | error e =>
      rw [hf] at h
      have h3 : (Except.error e : Except String PegReport) = .ok rep := h
      cases h3
    | ok st =>
      rw [hf] at h
      have h3 : (Except.ok (mkPegReport st) : Except String PegReport) = .ok rep := h
      simp only [Except.ok.injEq] at h3
      subst h3
      have hst : st.total_mcap = 0 := by
        have := pegFold_total w c data ⟨[], 0, 0⟩ st hf
        simpa [h0] using this
      unfold mkPegReport
      simp [hst, pyRound_zero]
  · intro pools h0
    unfold build_leverage_heatmap
    have hfold := levFold_totalSum pools []
    have hzero : accTotalSum ([] : List (String × ProtoAcc)) = 0 := rfl
    rw [hzero, zero_add, h0] at hfold
    have htot : ((pools.foldl levStep []).foldl levAggStep ⟨[], 0, 0⟩).total_tvl = 0 := by
      rw [levAgg_total, hfold]
      norm_num
    simp [htot, pyRound_zero]

/-- C8 witness: an empty batch has zero total market cap and zero tracked
TVL, and both analyzers report a zero index for it. -/
theorem c8_zero_denominator_witness :
    analyse_pegs [] (5/1000) (2/100) = .ok (mkPegReport ⟨[], 0, 0⟩) ∧
    totalMcapList [] = 0 ∧ trackedTvlSum [] = 0 ∧
    (mkPegReport ⟨[], 0, 0⟩).system_peg_stress_index = 0 ∧
    (build_leverage_heatmap []).system_leverage_index = 0 := by
  refine ⟨rfl, rfl, rfl, ?_, ?_⟩
  · exact c8_zero_denominator.1 [] (5/1000) (2/100) (mkPegReport ⟨[], 0, 0⟩) rfl rfl
  · exact c8_zero_denominator.2 [] rfl

/-- C3 counterexample: a system stress index exactly equal to the 0.02
critical threshold classifies ELEVATED, not CRITICAL, because
stress_level compares strictly. -/
theorem c3_exact_critical_is_elevated :
    stress_level (2/100) = "ELEVATED" ∧ stress_level (2/100) ≠ "CRITICAL" := by
  constructor
  · norm_num [stress_level]
  · norm_num [stress_level]
    simp

/-- C3 amended: the per-asset peg status and the utilization stress tiers
are inclusive at the higher tier (a value exactly at a threshold takes the
higher tier), but the system-level stress_level function compares
strictly, so a value exactly at one of its thresholds takes the lower
tier. -/
theorem c3_threshold_boundaries :
    (∀ w c d : ℚ, c ≤ d → pegStatus w c d = "CRITICAL") ∧
    (∀ w c d : ℚ, w ≤ d → d < c → pegStatus w c d = "WARNING") ∧
    (∀ u : ℚ, 9/10 ≤ u → util_stress u = "CRITICAL") ∧
    (∀ u : ℚ, 8/10 ≤ u → u < 9/10 → util_stress u = "HIGH") ∧
    (∀ u : ℚ, 65/100 ≤ u → u < 8/10 → util_stress u = "ELEVATED") ∧
    (∀ u : ℚ, 1/2 ≤ u → u < 65/100 → util_stress u = "MODERATE") ∧
    stress_level (2/100) = "ELEVATED" ∧
    stress_level (5/1000) = "MILD" ∧
    stress_level (1/1000) = "NORMAL" ∧
    (∀ s : ℚ, 2/100 < s → stress_level s = "CRITICAL") := by
  refine ⟨?_, ?_, ?_, ?_, ?_, ?_, ?_, ?_, ?_, ?_⟩
  · intro w c d h
    rw [pegStatus, if_pos h]
  · intro w c d h1 h2
    rw [pegStatus, if_neg (not_le.mpr h2), if_pos h1]
  · intro u h
    rw [util_stress, if_pos h]
  · intro u h1 h2
    rw [util_stress, if_neg (not_le.mpr h2), if_pos h1]
  · intro u h1 h2
    rw [util_stress, if_neg (not_le.mpr (lt_of_lt_of_le h2 (by norm_num))),
      if_neg (not_le.mpr h2), if_pos h1]
  · intro u h1 h2
    rw [util_stress, if_neg (not_le.mpr (lt_of_lt_of_le h2 (by norm_num))),
      if_neg (not_le.mpr (lt_of_lt_of_le h2 (by norm_num))),
      if_neg (not_le.mpr h2), if_pos h1]
  · norm_num [stress_level]
  · norm_num [stress_level]
  · norm_num [stress_level]
  · intro s h
    rw [stress_level, if_pos h]

theorem c3_threshold_boundaries_witness :
    pegStatus (5/1000) (2/100) (2/100) = "CRITICAL" ∧
    pegStatus (5/1000) (2/100) (5/1000) = "WARNING" ∧
    util_stress (9/10) = "CRITICAL" ∧ util_stress (8/10) = "HIGH" ∧
    util_stress (65/100) = "ELEVATED" ∧ util_stress (1/2) = "MODERATE" ∧
    stress_level (1/4) = "CRITICAL" := by
  refine ⟨c3_threshold_boundaries.1 _ _ _ le_rfl,
    c3_threshold_boundaries.2.1 _ _ _ le_rfl (by norm_num),
    c3_threshold_boundaries.2.2.1 _ le_rfl,
    c3_threshold_boundaries.2.2.2.1 _ le_rfl (by norm_num),
    c3_threshold_boundaries.2.2.2.2.1 _ le_rfl (by norm_num),
    c3_threshold_boundaries.2.2.2.2.2.1 _ le_rfl (by norm_num),
    c3_threshold_boundaries.2.2.2.2.2.2.2.2.2 _ (by norm_num)⟩

-- ── C4: defensive defaulting of malformed records ─────────────────────────

/-- The field value is defaultable by analyse_pegs: it is not a truthy
(non-empty) string.  Any non-empty string, numeric or not, survives the
or-defaulting and raises TypeError at the first arithmetic use. -/
def numericOpt : Option PyVal → Bool
  | some (.str s _) => s == ""
  | _ => true

/-- All four numeric fields of the record are free of truthy strings. -/
def coinNumeric (coin : CoinIn) : Bool :=
  numericOpt coin.current_price && numericOpt coin.market_cap &&
  numericOpt coin.total_volume && numericOpt coin.price_change_percentage_24h

theorem asNum_pyOr_ok (v : PyVal) (k : ℚ) (hv : numericOpt (some v) = true) :
    ∃ q, asNum (pyOr v (.num k)) = .ok q := by
  cases v with
  | num q =>
    by_cases hq : q = 0
    · exact ⟨k, by simp [pyOr, pyTruthy, hq, asNum]⟩
    · exact ⟨q, by simp [pyOr, pyTruthy, hq, asNum]⟩
  | str s p =>
    have hs : s = "" := by simpa [numericOpt] using hv
    subst hs
    exact ⟨k, by simp [pyOr, pyTruthy, asNum]⟩
  | none => exact ⟨k, by simp [pyOr, pyTruthy, asNum]⟩

theorem numericOpt_getD (o : Option PyVal) (d : PyVal) (ho : numericOpt o = true)
    (hd : numericOpt (some d) = true) : numericOpt (some (o.getD d)) = true := by
  cases o with
  | none => simpa using hd
  | some v => simpa using ho

theorem pegStep_ok_of_numeric (w c : ℚ) (st : PegState) (coin : CoinIn)
    (h : coinNumeric coin = true) : ∃ st', pegStep w c st coin = .ok st' := by
  have h4 := h
  simp only [coinNumeric, Bool.and_eq_true] at h4
  obtain ⟨⟨⟨h1, h2⟩, h3⟩, h4⟩ := h4
  obtain ⟨p, hp⟩ := asNum_pyOr_ok (coin.current_price.getD (.num 1)) 1
    (numericOpt_getD _ _ h1 rfl)
  obtain ⟨m, hm⟩ := asNum_pyOr_ok (coin.market_cap.getD (.num 0)) 0
    (numericOpt_getD _ _ h2 rfl)
  obtain ⟨v, hv⟩ := asNum_pyOr_ok (coin.total_volume.getD (.num 0)) 0
    (numericOpt_getD _ _ h3 rfl)
  obtain ⟨ch, hch⟩ := asNum_pyOr_ok (coin.price_change_percentage_24h.getD .none) 0
    (numericOpt_getD _ _ h4 rfl)
  have hp' : asNum (priceV coin) = .ok p := hp
  have hm' : asNum (mcapV coin) = .ok m := hm
  have hv' : asNum (volV coin) = .ok v := hv
  have hch' : asNum (changeV coin) = .ok ch := hch
  cases hres : pegStep w c st coin with
  | ok st' => exact ⟨st', rfl⟩
  | error e =>
    exfalso
    unfold pegStep at hres
    rw [hp', hm', hv', hch'] at hres
    exact Except.noConfusion hres

theorem pegFold_ok_of_numeric (w c : ℚ) (data : List CoinIn)
    (h : ∀ coin ∈ data, coinNumeric coin = true) :
    ∀ st, ∃ st', data.foldlM (pegStep w c) st = .ok st' := by
  induction data with
  | nil => intro st; exact ⟨st, rfl⟩
  | cons coin t ih =>
    intro st
    obtain ⟨st1, hst1⟩ := pegStep_ok_of_numeric w c st coin (h coin (by simp))
    obtain ⟨st', hst'⟩ := ih (fun x hx => h x (by simp [hx])) st1
    refine ⟨st', ?_⟩
    rw [List.foldlM_cons, hst1]
    exact hst'

/-- A truthy string current_price, numeric or not, makes the loop body of
analyse_pegs raise TypeError at price - 1.0. -/
theorem pegStep_str_price_raises (w c : ℚ) (st : PegState) (coin : CoinIn)
    (s : String) (p : Option ℚ) (hs : s ≠ "")
    (hcp : coin.current_price = some (.str s p)) :
    pegStep w c st coin = .error "TypeError" := by
  have hp : asNum (priceV coin) = .error "TypeError" := by
    simp [priceV, hcp, pyOr, pyTruthy, hs, asNum]
  unfold pegStep
  rw [hp]

/-- C4 amended: _safe_float never raises: float() converts a parsable
numeric string and every other non-numeric value (missing, null,
unparsable string) is defaulted to 0; analyse_pegs defaults missing,
null, and falsy fields and completes on every batch whose numeric fields
hold no non-empty string; but any truthy string in current_price —
numeric such as 1.5 just as much as non-numeric such as abc — raises
TypeError there, aborting the whole batch. -/
theorem c4_defensive_defaults :
    ((∀ s, safe_float (some (.str s Option.none)) = 0) ∧
      (∀ s q, safe_float (some (.str s (some q))) = q) ∧
      safe_float Option.none = 0 ∧ safe_float (some .none) = 0 ∧
      (∀ q, safe_float (some (.num q)) = q)) ∧
    (∀ (data : List CoinIn) (w c : ℚ),
      (∀ coin ∈ data, coinNumeric coin = true) →
      ∃ rep, analyse_pegs data w c = .ok rep) ∧
    (∀ (w c : ℚ) (st : PegState) (coin : CoinIn) (s : String) (p : Option ℚ),
      s ≠ "" → coin.current_price = some (.str s p) →
      pegStep w c st coin = .error "TypeError") := by
  refine ⟨⟨fun s => rfl, fun s q => rfl, rfl, rfl, fun q => rfl⟩, ?_, ?_⟩
  · intro data w c h
    obtain ⟨st, hst⟩ := pegFold_ok_of_numeric w c data h ⟨[], 0, 0⟩
    refine ⟨mkPegReport st, ?_⟩
    unfold analyse_pegs
    rw [hst]
    rfl
  · intro w c st coin s p hs hcp
    exact pegStep_str_price_raises w c st coin s p hs hcp

/-- Concrete inputs for the C4 counterexample: a coin whose current_price
is a non-numeric string, and one whose current_price is the numeric
string 1.5 (float() would parse it, but the arithmetic in analyse_pegs
never calls float() and raises first). -/
def c4coin : CoinIn :=
  { id := some "bad", symbol := some "bad", name := some "Bad",
    current_price := some (.str "abc" Option.none), market_cap := Option.none,
    total_volume := Option.none, price_change_percentage_24h := Option.none }

def c4numcoin : CoinIn :=
  { id := some "num", symbol := some "num", name := some "Num",
    current_price := some (.str "1.5" (some (3/2))), market_cap := Option.none,
    total_volume := Option.none, price_change_percentage_24h := Option.none }

/-- C4 counterexample: analyse_pegs does not complete on a batch holding a
coin whose current_price is a string — non-numeric like abc, or even the
numeric string 1.5; the TypeError crosses the analyzer boundary. -/
theorem c4_string_price_raises :
    analyse_pegs [c4coin] (5/1000) (2/100) = .error "TypeError" ∧
    analyse_pegs [c4numcoin] (5/1000) (2/100) = .error "TypeError" := by
  constructor
  · have hstep : pegStep (5/1000) (2/100) ⟨[], 0, 0⟩ c4coin = .error "TypeError" :=
      pegStep_str_price_raises (5/1000) (2/100) ⟨[], 0, 0⟩ c4coin "abc"
        Option.none (by decide) rfl
    have hfold : ([c4coin].foldlM (pegStep (5/1000) (2/100))
        (⟨[], 0, 0⟩ : PegState)) = .error "TypeError" := by
      rw [List.foldlM_cons, hstep]
      rfl
    unfold analyse_pegs
    rw [hfold]
    rfl
  · have hstep : pegStep (5/1000) (2/100) ⟨[], 0, 0⟩ c4numcoin = .error "TypeError" :=
      pegStep_str_price_raises (5/1000) (2/100) ⟨[], 0, 0⟩ c4numcoin "1.5"
        (some (3/2)) (by decide) rfl
    have hfold : ([c4numcoin].foldlM (pegStep (5/1000) (2/100))
        (⟨[], 0, 0⟩ : PegState)) = .error "TypeError" := by
      rw [List.foldlM_cons, hstep]
      rfl
    unfold analyse_pegs
    rw [hfold]
    rfl

/-- Concrete input for the C4 witness: missing and null numeric fields. -/
def c4good : CoinIn :=
  { id := some "ok", symbol := some "usdy", name := some "USDY",
    current_price := some (.num 1), market_cap := Option.none,
    total_volume := some .none, price_change_percentage_24h := Option.none }

theorem c4_defensive_defaults_witness :
    safe_float (some (.str "x" Option.none)) = 0 ∧
    safe_float (some (.str "1.5" (some (3/2)))) = 3/2 ∧
    (∀ coin ∈ [c4good], coinNumeric coin = true) ∧
    (analyse_pegs [c4good] (5/1000) (2/100)).toOption.isSome = true ∧
    pegStep (5/1000) (2/100) ⟨[], 0, 0⟩ c4numcoin = .error "TypeError" := by
  have hnum : ∀ coin ∈ [c4good], coinNumeric coin = true := by
    intro coin hc
    simp only [List.mem_singleton] at hc
    subst hc
    rfl
  obtain ⟨rep, hrep⟩ := c4_defensive_defaults.2.1 [c4good] (5/1000) (2/100) hnum
  exact ⟨c4_defensive_defaults.1.1 "x", c4_defensive_defaults.1.2.1 "1.5" (3/2),
    hnum, by rw [hrep]; rfl,
    c4_defensive_defaults.2.2 (5/1000) (2/100) ⟨[], 0, 0⟩ c4numcoin "1.5"
      (some (3/2)) (by decide) rfl⟩

-- ── C2: handling of negative and missing weights ──────────────────────────

theorem pegStep_ok_fields (w c : ℚ) (st : PegState) (coin : CoinIn)
    (p m v ch : ℚ)
    (hp : asNum (priceV coin) = .ok p) (hm : asNum (mcapV coin) = .ok m)
    (hv : asNum (volV coin) = .ok v) (hch : asNum (changeV coin) = .ok ch) :
    ∃ st', pegStep w c st coin = .ok st' ∧
      st'.total_mcap = st.total_mcap + m ∧
      st'.weighted_dev = st.weighted_dev + m * |p - 1| := by
  cases hres : pegStep w c st coin with
  | error e =>
    exfalso
    unfold pegStep at hres
    rw [hp, hm, hv, hch] at hres
    exact Except.noConfusion hres
  | ok st' =>
    unfold pegStep at hres
    rw [hp, hm, hv, hch] at hres
    simp only [Except.ok.injEq] at hres
    subst hres
    exact ⟨_, rfl, rfl, rfl⟩

/-- C2 amended: a missing market-cap or TVL field is processed exactly as
an explicit zero and processing continues, and the cascade simulator
excludes a position with non-positive collateral, debt, or threshold
entirely; a numeric market-cap value, however, is accumulated as-is, so a
negative value contributes negative weight instead of being zeroed. -/
theorem c2_weight_handling :
    (∀ (w c : ℚ) (st : PegState) (coin : CoinIn), coin.market_cap = Option.none →
      pegStep w c st { coin with market_cap := some (.num 0) } =
        pegStep w c st coin) ∧
    (∀ (pool : PoolIn) (acc : List (String × ProtoAcc)), pool.tvlUsd = Option.none →
      levStep acc { pool with tvlUsd := some 0 } = levStep acc pool) ∧
    (∀ (w c : ℚ) (st st' : PegState) (coin : CoinIn) (m : ℚ),
      asNum (mcapV coin) = .ok m → pegStep w c st coin = .ok st' →
      st'.total_mcap = st.total_mcap + m) ∧
    (∀ (sp : List (String × ℚ)) (E : ℚ) (acc : CascadeAcc) (pos : PositionIn),
      colEth pos ≤ 0 ∨ debtEth pos ≤ 0 ∨ liqThr pos ≤ 0 →
      posStep sp E acc pos = acc) := by
  refine ⟨?_, ?_, ?_, ?_⟩
  · intro w c st coin hm
    unfold pegStep priceV mcapV volV changeV
    rw [hm]
    rfl
  · intro pool acc hm
    unfold levStep poolProject poolTvl
    rw [hm]
    simp [pyOrQ]
  · intro w c st st' coin m hm hst
    rw [pegStep_total_mcap w c st coin st' hst]
    simp [coinMcap, hm]
  · intro sp E acc pos h
    unfold posStep
    rw [if_pos h]

/-- Concrete coins for the C2 counterexample. -/
def c2pos : CoinIn :=
  { id := some "a", symbol := some "usda", name := some "USDA",
    current_price := some (.num 1), market_cap := some (.num 100),
    total_volume := Option.none, price_change_percentage_24h := Option.none }

def c2neg : CoinIn :=
  { id := some "b", symbol := some "usdb", name := some "USDB",
    current_price := some (.num (101/100)), market_cap := some (.num (-50)),
    total_volume := Option.none, price_change_percentage_24h := Option.none }

def c2negZeroed : CoinIn := { c2neg with market_cap := some (.num 0) }

theorem c2_batch_eval (X : CoinIn) (pX mX : ℚ)
    (hp : asNum (priceV X) = .ok pX) (hm : asNum (mcapV X) = .ok mX)
    (hv : asNum (volV X) = .ok 0) (hch : asNum (changeV X) = .ok 0) :
    ∃ st, ([c2pos, X].foldlM (pegStep (5/1000) (2/100))
        (⟨[], 0, 0⟩ : PegState)) = .ok st ∧
      st.total_mcap = 100 + mX ∧ st.weighted_dev = mX * |pX - 1| := by
  have hpA : asNum (priceV c2pos) = .ok 1 := by
    norm_num [priceV, c2pos, pyOr, pyTruthy, asNum]
  have hmA : asNum (mcapV c2pos) = .ok 100 := by
    norm_num [mcapV, c2pos, pyOr, pyTruthy, asNum]
  have hvA : asNum (volV c2pos) = .ok 0 := by
    norm_num [volV, c2pos, pyOr, pyTruthy, asNum]
  have hchA : asNum (changeV c2pos) = .ok 0 := by
    norm_num [changeV, c2pos, pyOr, pyTruthy, asNum]
  obtain ⟨st1, hst1, ht1, hw1⟩ :=
    pegStep_ok_fields (5/1000) (2/100) ⟨[], 0, 0⟩ c2pos 1 100 0 0 hpA hmA hvA hchA
  obtain ⟨st2, hst2, ht2, hw2⟩ :=
    pegStep_ok_fields (5/1000) (2/100) st1 X pX mX 0 0 hp hm hv hch
  refine ⟨st2, ?_, ?_, ?_⟩
  · rw [List.foldlM_cons, hst1]
    show [X].foldlM (pegStep (5/1000) (2/100)) st1 = .ok st2
    rw [List.foldlM_cons, hst2]
    rfl
  · rw [ht2, ht1]
    norm_num
  · rw [hw2, hw1]
    norm_num

/-- C2 counterexample: a coin with market cap -50 is not processed as if
the value were zero: next to a 100-cap stable coin and a 1 percent
deviation it drives the reported system peg stress index to -1 percent,
while zeroing the field yields 0. -/
theorem c2_negative_mcap_not_zeroed :
    (analyse_pegs [c2pos, c2neg] (5/1000) (2/100)).map
        (fun r => r.system_peg_stress_index) = .ok (-1) ∧
    (analyse_pegs [c2pos, c2negZeroed] (5/1000) (2/100)).map
        (fun r => r.system_peg_stress_index) = .ok 0 := by
  have habs : |(101/100 : ℚ) - 1| = 1/100 := by
    rw [show (101/100 : ℚ) - 1 = 1/100 by norm_num, abs_of_nonneg (by norm_num)]
  constructor
  · have hp : asNum (priceV c2neg) = .ok (101/100) := by
      norm_num [priceV, c2neg, pyOr, pyTruthy, asNum]
    have hm : asNum (mcapV c2neg) = .ok (-50) := by
      norm_num [mcapV, c2neg, pyOr, pyTruthy, asNum]
    have hv : asNum (volV c2neg) = .ok 0 := by
      norm_num [volV, c2neg, pyOr, pyTruthy, asNum]
    have hch : asNum (changeV c2neg) = .ok 0 := by
      norm_num [changeV, c2neg, pyOr, pyTruthy, asNum]
    obtain ⟨st, hfold, htot, hwd⟩ := c2_batch_eval c2neg (101/100) (-50) hp hm hv hch
    rw [habs] at hwd
    unfold analyse_pegs
    rw [hfold]
    show Except.ok (mkPegReport st).system_peg_stress_index = .ok (-1)
    unfold mkPegReport
    rw [htot, hwd]
    norm_num [pyRound, rhe]
  · have hp : asNum (priceV c2negZeroed) = .ok (101/100) := by
      norm_num [priceV, c2negZeroed, c2neg, pyOr, pyTruthy, asNum]
    have hm : asNum (mcapV c2negZeroed) = .ok 0 := by
      norm_num [mcapV, c2negZeroed, c2neg, pyOr, pyTruthy, asNum]
    have hv : asNum (volV c2negZeroed) = .ok 0 := by
      norm_num [volV, c2negZeroed, c2neg, pyOr, pyTruthy, asNum]
    have hch : asNum (changeV c2negZeroed) = .ok 0 := by
      norm_num [changeV, c2negZeroed, c2neg, pyOr, pyTruthy, asNum]
    obtain ⟨st, hfold, htot, hwd⟩ := c2_batch_eval c2negZeroed (101/100) 0 hp hm hv hch
    rw [habs] at hwd
    unfold analyse_pegs
    rw [hfold]
    show Except.ok (mkPegReport st).system_peg_stress_index = .ok 0
    unfold mkPegReport
    rw [htot, hwd]
    norm_num [pyRound, rhe]

/-- Concrete inputs for the C2 witness. -/
def c2wcoin : CoinIn :=
  { id := some "w", symbol := some "usdw", name := some "USDW",
    current_price := some (.num 1), market_cap := Option.none,
    total_volume := Option.none, price_change_percentage_24h := Option.none }

def c2wpool : PoolIn :=
  { project := some "aave-v3", symbol := some "USDC", chain := some "Ethereum",
    tvlUsd := Option.none, totalBorrowUsd := some 5, borrowTvl := Option.none,
    totalSupplyUsd := some 10, apyBorrow := Option.none, apy := Option.none }

def c2wpos : PositionIn :=
  { totalCollateralETH := some (.num 0),
    totalDebtETH := some (.num 1000000000000000000),
    currentLiquidationThreshold := some (.num 8000), collateral := [] }

theorem c2_weight_handling_witness :
    c2wcoin.market_cap = Option.none ∧
    pegStep (5/1000) (2/100) ⟨[], 0, 0⟩ { c2wcoin with market_cap := some (.num 0) } =
      pegStep (5/1000) (2/100) ⟨[], 0, 0⟩ c2wcoin ∧
    c2wpool.tvlUsd = Option.none ∧
    levStep [] { c2wpool with tvlUsd := some 0 } = levStep [] c2wpool ∧
    colEth c2wpos ≤ 0 ∧
    posStep [] 1600 ⟨0, 0, 0, []⟩ c2wpos = ⟨0, 0, 0, []⟩ := by
  have h1 : c2wcoin.market_cap = Option.none := rfl
  have h3 : c2wpool.tvlUsd = Option.none := rfl
  have h5 : colEth c2wpos ≤ 0 := by
    norm_num [colEth, safe_float, c2wpos]
  exact ⟨h1, c2_weight_handling.1 (5/1000) (2/100) ⟨[], 0, 0⟩ c2wcoin h1,
    h3, c2_weight_handling.2.1 c2wpool [] h3,
    h5, c2_weight_handling.2.2.2 [] 1600 ⟨0, 0, 0, []⟩ c2wpos (Or.inl h5)⟩

-- ── Helper lemmas for the cascade simulator ───────────────────────────────

/-- The validity guard of _calc_cascade. -/
def validPos (pos : PositionIn) : Bool :=
  decide (0 < colEth pos) && decide (0 < debtEth pos) && decide (0 < liqThr pos)

/-- Valid and raw health factor below one: liquidatable in every scenario
with a positive stressed price. -/
def liqPred (pos : PositionIn) : Bool :=
  validPos pos && decide (colEth pos * liqThr pos / debtEth pos < 1)

def liqCount (positions : List PositionIn) : ℕ := positions.countP liqPred

theorem hf_scale (c d t E : ℚ) (hE : E ≠ 0) : c * E * t / (d * E) = c * t / d := by
  rcases eq_or_ne d 0 with hd | hd
  · simp [hd]
  · field_simp
    ring

theorem posStep_count_pos (sp : List (String × ℚ)) (E : ℚ) (hE : 0 < E)
    (acc : CascadeAcc) (pos : PositionIn) :
    (posStep sp E acc pos).liquidatable_count =
      acc.liquidatable_count + (if liqPred pos then 1 else 0) := by
  unfold posStep
  by_cases hval : colEth pos ≤ 0 ∨ debtEth pos ≤ 0 ∨ liqThr pos ≤ 0
  · rw [if_pos hval]
    have hfalse : liqPred pos = false := by
      rcases hval with h | h | h <;>
        simp [liqPred, validPos, not_lt.mpr h]
    rw [hfalse]
    simp
  · rw [if_neg hval]
    push_neg at hval
    obtain ⟨hc, hd, ht⟩ := hval
    have hdE : 0 < debtEth pos * E := mul_pos hd hE
    have hhf : stressedHF (colEth pos * E) (liqThr pos) (debtEth pos * E) =
        some (colEth pos * liqThr pos / debtEth pos) := by
      rw [stressedHF, if_pos hdE, hf_scale _ _ _ _ (ne_of_gt hE)]
    simp only [hhf]
    by_cases hlt : colEth pos * liqThr pos / debtEth pos < 1
    · have hLP : liqPred pos = true := by
        simp [liqPred, validPos, hc, hd, ht, hlt]
      rw [hLP]
      simp [hfLt1, hlt]
    · have hLP : liqPred pos = false := by
        simp [liqPred, validPos, hc, hd, ht, hlt]
      rw [hLP]
      simp [hfLt1, hlt]

theorem posStep_count_nonpos (sp : List (String × ℚ)) (E : ℚ) (hE : E ≤ 0)
    (acc : CascadeAcc) (pos : PositionIn) :
    (posStep sp E acc pos).liquidatable_count = acc.liquidatable_count := by
  unfold posStep
  by_cases hval : colEth pos ≤ 0 ∨ debtEth pos ≤ 0 ∨ liqThr pos ≤ 0
  · rw [if_pos hval]
  · rw [if_neg hval]
    push_neg at hval
    have hdE : ¬(0 < debtEth pos * E) := by
      have hd := hval.2.1
      nlinarith
    simp only [stressedHF, if_neg hdE]
    simp [hfLt1]

theorem cascadeFold_count_pos (sp : List (String × ℚ)) (E : ℚ) (hE : 0 < E)
    (positions : List PositionIn) :
    ∀ acc : CascadeAcc, (positions.foldl (posStep sp E) acc).liquidatable_count =
      acc.liquidatable_count + liqCount positions := by
  induction positions with
  | nil => intro acc; simp [liqCount]
  | cons p t ih =>
    intro acc
    simp only [List.foldl_cons]
    rw [ih, posStep_count_pos sp E hE acc p]
    unfold liqCount
    rw [List.countP_cons]
    by_cases hp : liqPred p = true
    · simp [hp]
      omega
    · simp [hp]

theorem cascadeFold_count_nonpos (sp : List (String × ℚ)) (E : ℚ) (hE : E ≤ 0)
    (positions : List PositionIn) :
    ∀ acc : CascadeAcc, (positions.foldl (posStep sp E) acc).liquidatable_count =
      acc.liquidatable_count := by
  induction positions with
  | nil => intro acc; rfl
  | cons p t ih =>
    intro acc
    simp only [List.foldl_cons]
    rw [ih, posStep_count_nonpos sp E hE acc p]

theorem scenarioFor_count_pos (positions : List PositionIn)
    (prices : List (String × ℚ)) (eth drop : ℚ) (hE : 0 < eth * (1 - drop)) :
    (scenarioFor positions prices eth drop).liquidatable_positions =
      liqCount positions := by
  unfold scenarioFor calc_cascade
  simp only []
  rw [cascadeFold_count_pos _ _ hE positions ⟨0, 0, 0, []⟩]
  simp

theorem scenarioFor_count_nonpos (positions : List PositionIn)
    (prices : List (String × ℚ)) (eth drop : ℚ) (hE : eth * (1 - drop) ≤ 0) :
    (scenarioFor positions prices eth drop).liquidatable_positions = 0 := by
  unfold scenarioFor calc_cascade
  simp only []
  rw [cascadeFold_count_nonpos _ _ hE positions ⟨0, 0, 0, []⟩]

/-- C5 amended: while the stressed price is positive the stressed health
factor equals (collateralETH x liquidationThreshold) / debtETH, so the
liquidatable count agrees between any two such scenarios; when the
stressed price is not positive (a drop of 100 percent or more) the health
factor is treated as infinite and the count is zero. -/
theorem c5_hf_scale_invariance (positions : List PositionIn)
    (prices : List (String × ℚ)) (eth d1 d2 : ℚ)
    (h1 : 0 < eth * (1 - d1)) (h2 : 0 < eth * (1 - d2)) :
    (∀ c dq t E : ℚ, 0 < E → 0 < dq →
      stressedHF (c * E) t (dq * E) = some (c * t / dq)) ∧
    (scenarioFor positions prices eth d1).liquidatable_positions =
      (scenarioFor positions prices eth d2).liquidatable_positions ∧
    (∀ d3 : ℚ, eth * (1 - d3) ≤ 0 →
      (scenarioFor positions prices eth d3).liquidatable_positions = 0) := by
  refine ⟨?_, ?_, ?_⟩
  · intro c dq t E hE hdq
    rw [stressedHF, if_pos (mul_pos hdq hE), hf_scale _ _ _ _ (ne_of_gt hE)]
  · rw [scenarioFor_count_pos positions prices eth d1 h1,
      scenarioFor_count_pos positions prices eth d2 h2]
  · intro d3 h3
    exact scenarioFor_count_nonpos positions prices eth d3 h3

/-- Concrete position for the C5 counterexample: one million ETH of
collateral, 0.9 million ETH of debt, threshold 0.8, health factor 8/9. -/
def c5pos : PositionIn :=
  { totalCollateralETH := some (.num 1000000000000000000000000),
    totalDebtETH := some (.num 900000000000000000000000),
    currentLiquidationThreshold := some (.num 8000), collateral := [] }

/-- C5 counterexample: with scenario list [0.2, 1.0] the run reports one
liquidatable position at the 20 percent drop but zero at the 100 percent
drop, and at the 100 percent drop the stressed health factor is the
infinite sentinel, not (collateralETH x threshold) / debtETH = 8/9. -/
theorem c5_count_not_invariant :
    stressedHF (colEth c5pos * (2000 * (1 - 1))) (liqThr c5pos)
        (debtEth c5pos * (2000 * (1 - 1))) = Option.none ∧
    colEth c5pos * liqThr c5pos / debtEth c5pos = 8/9 ∧
    (simulate_cascade [c5pos] [] [1/5, 1] 2000).map
        (fun r => ((lookupA "drop_20pct" r.scenarios).map
            (fun s => s.liquidatable_positions),
          (lookupA "drop_100pct" r.scenarios).map
            (fun s => s.liquidatable_positions))) = .ok (some 1, some 0) := by
  have hliq : liqPred c5pos = true := by
    norm_num [liqPred, validPos, colEth, debtEth, liqThr, safe_float, c5pos]
  have hcount : liqCount [c5pos] = 1 := by
    rw [liqCount, List.countP_cons, List.countP_nil, hliq]
    rfl
  refine ⟨?_, ?_, ?_⟩
  · have h0 : ¬(0 < debtEth c5pos * (2000 * (1 - 1))) := by
      norm_num
    rw [stressedHF, if_neg h0]
  · norm_num [colEth, debtEth, liqThr, safe_float, c5pos]
  · have hk1 : scenKey (1/5) = "drop_20pct" := by
      rw [scenKey, show pyInt ((1/5 : ℚ) * 100) = 20 from by norm_num [pyInt]]
      rfl
    have hk2 : scenKey 1 = "drop_100pct" := by
      rw [scenKey, show pyInt ((1 : ℚ) * 100) = 100 from by norm_num [pyInt]]
      rfl
    have hs1 : (scenarioFor [c5pos] [] 2000 (1/5)).liquidatable_positions = 1 := by
      rw [scenarioFor_count_pos [c5pos] [] 2000 (1/5) (by norm_num), hcount]
    have hs2 : (scenarioFor [c5pos] [] 2000 1).liquidatable_positions = 0 :=
      scenarioFor_count_nonpos [c5pos] [] 2000 1 (by norm_num)
    have hne : ("drop_20pct" == "drop_100pct") = false := by rfl
    have hb1 : ("drop_20pct" == "drop_20pct") = true := by rfl
    have hb2 : ("drop_100pct" == "drop_100pct") = true := by rfl
    rw [simulate_cascade, if_neg (by simp : ¬([c5pos] = []))]
    simp only [List.foldl_cons, List.foldl_nil, hk1, hk2, assocSet]
    simp only [Except.map, lookupA, List.find?, hne, hb1, hb2]
    norm_num [hs1, hs2]

/-- Concrete position for the C5 witness. -/
def c5wpos : PositionIn :=
  { totalCollateralETH := some (.num 1000000000000000000000000),
    totalDebtETH := some (.num 950000000000000000000000),
    currentLiquidationThreshold := some (.num 8000), collateral := [] }

theorem c5_hf_scale_invariance_witness :
    0 < (2000:ℚ) * (1 - 1/5) ∧ 0 < (2000:ℚ) * (1 - 2/5) ∧
    (scenarioFor [c5wpos] [] 2000 (1/5)).liquidatable_positions =
      (scenarioFor [c5wpos] [] 2000 (2/5)).liquidatable_positions := by
  have h1 : (0:ℚ) < 2000 * (1 - 1/5) := by norm_num
  have h2 : (0:ℚ) < 2000 * (1 - 2/5) := by norm_num
  exact ⟨h1, h2, (c5_hf_scale_invariance [c5wpos] [] 2000 (1/5) (2/5) h1 h2).2.1⟩

/-- Concrete position for the C1 evaluation: one million ETH of
collateral, 0.9 million ETH of debt, threshold 0.8, health factor 8/9 in
every scenario with a positive stressed price. -/
def c1pos : PositionIn :=
  { totalCollateralETH := some (.num 1000000000000000000000000),
    totalDebtETH := some (.num 900000000000000000000000),
    currentLiquidationThreshold := some (.num 8000), collateral := [] }

/-- C1 evaluation at the failing input: simulate_cascade scales collateral
and debt by the same stressed ETH price, so the single liquidatable
position is worth 1.6 bn USD at a 20 percent drop but only 1.2 bn USD at a
40 percent drop: the reported liquidatable USD strictly decreases as the
drop deepens, where the claim requires it to be non-decreasing. -/
theorem c1_cascade_usd_decreases :
    (simulate_cascade [c1pos] [] [1/5, 2/5] 2000).map
        (fun r => ((lookupA "drop_20pct" r.scenarios).map
            (fun s => s.liquidatable_usd_bn),
          (lookupA "drop_40pct" r.scenarios).map
            (fun s => s.liquidatable_usd_bn))) = .ok (some (8/5), some (6/5)) ∧
    (6/5 : ℚ) < 8/5 := by
  have hk1 : scenKey (1/5) = "drop_20pct" := by
    rw [scenKey, show pyInt ((1/5 : ℚ) * 100) = 20 from by norm_num [pyInt]]
    rfl
  have hk2 : scenKey (2/5) = "drop_40pct" := by
    rw [scenKey, show pyInt ((2/5 : ℚ) * 100) = 40 from by norm_num [pyInt]]
    rfl
  have hs1 : (scenarioFor [c1pos] [] 2000 (1/5)).liquidatable_usd_bn = 8/5 := by
    norm_num [scenarioFor, calc_cascade, posStep, colEth, debtEth, liqThr,
      safe_float, stressedHF, hfLt1, c1pos, pyRound, rhe, sortDescBy]
  have hs2 : (scenarioFor [c1pos] [] 2000 (2/5)).liquidatable_usd_bn = 6/5 := by
    norm_num [scenarioFor, calc_cascade, posStep, colEth, debtEth, liqThr,
      safe_float, stressedHF, hfLt1, c1pos, pyRound, rhe, sortDescBy]
  have hne : ("drop_20pct" == "drop_40pct") = false := by rfl
  have hb1 : ("drop_20pct" == "drop_20pct") = true := by rfl
  have hb2 : ("drop_40pct" == "drop_40pct") = true := by rfl
  constructor
  · rw [simulate_cascade, if_neg (by simp : ¬([c1pos] = []))]
    simp only [List.foldl_cons, List.foldl_nil, hk1, hk2, assocSet]
    simp only [Except.map, lookupA, List.find?, hne, hb1, hb2]
    norm_num [hs1, hs2]
  · norm_num

/-- C9: with a stored cascade, a requested drop percentage whose derived
key is absent from the computed scenarios yields the not-found error value
listing every available scenario key, without raising; a present key
yields that scenario record. -/
theorem c9_scenario_lookup (data : ServerData) (cascade : CascadeData)
    (asset : String) (dp : ℚ) (h : data.liquidation_cascade = some cascade) :
    (lookupA ("drop_" ++ toString (pyInt dp) ++ "pct") cascade.scenarios =
        Option.none →
      get_liquidation_cascade data asset (some dp) =
        .errNotFound ("drop_" ++ toString (pyInt dp) ++ "pct")
          (cascade.scenarios.map Prod.fst)) ∧
    (∀ s, lookupA ("drop_" ++ toString (pyInt dp) ++ "pct") cascade.scenarios =
        some s →
      get_liquidation_cascade data asset (some dp) =
        .one data.date asset dp s cascade.methodology) := by
  constructor
  · intro hnone
    unfold get_liquidation_cascade
    rw [h]
    simp only [hnone]
  · intro s hs
    unfold get_liquidation_cascade
    rw [h]
    simp only [hs]

/-- Concrete stored snapshot for the C9 witness. -/
def c9scen : Scenario :=
  { liquidatable_positions := 1, liquidatable_usd_bn := 8/5,
    total_collateral_usd_bn := 8/5, cascade_pct_of_tvl := some 100,
    top_liquidatable_assets := [] }

def c9data : ServerData :=
  { date := some "2025-01-01",
    liquidation_cascade :=
      some { scenarios := [("drop_20pct", c9scen)], methodology := some "m" } }

theorem c9_scenario_lookup_witness :
    c9data.liquidation_cascade =
      some { scenarios := [("drop_20pct", c9scen)], methodology := some "m" } ∧
    lookupA ("drop_" ++ toString (pyInt (50:ℚ)) ++ "pct")
      [("drop_20pct", c9scen)] = Option.none ∧
    get_liquidation_cascade c9data "ETH" (some 50) =
      .errNotFound ("drop_" ++ toString (pyInt (50:ℚ)) ++ "pct") ["drop_20pct"] ∧
    lookupA ("drop_" ++ toString (pyInt (20:ℚ)) ++ "pct")
      [("drop_20pct", c9scen)] = some c9scen ∧
    get_liquidation_cascade c9data "ETH" (some 20) =
      .one (some "2025-01-01") "ETH" 20 c9scen (some "m") := by
  have h : c9data.liquidation_cascade =
      some { scenarios := [("drop_20pct", c9scen)], methodology := some "m" } := rfl
  have hk50 : ("drop_" ++ toString (pyInt (50:ℚ)) ++ "pct") = "drop_50pct" := by
    rw [show pyInt (50:ℚ) = 50 from by norm_num [pyInt]]
    rfl
  have hk20 : ("drop_" ++ toString (pyInt (20:ℚ)) ++ "pct") = "drop_20pct" := by
    rw [show pyInt (20:ℚ) = 20 from by norm_num [pyInt]]
    rfl
  have hl50 : lookupA ("drop_" ++ toString (pyInt (50:ℚ)) ++ "pct")
      [("drop_20pct", c9scen)] = Option.none := by
    rw [hk50]
    rfl
  have hl20 : lookupA ("drop_" ++ toString (pyInt (20:ℚ)) ++ "pct")
      [("drop_20pct", c9scen)] = some c9scen := by
    rw [hk20]
    rfl
  refine ⟨h, hl50, ?_, hl20, ?_⟩
  · exact (c9_scenario_lookup c9data
      { scenarios := [("drop_20pct", c9scen)], methodology := some "m" }
      "ETH" 50 h).1 hl50
  · exact (c9_scenario_lookup c9data
      { scenarios := [("drop_20pct", c9scen)], methodology := some "m" }
      "ETH" 20 h).2 c9scen hl20
